import Mathlib

/-!
Verification of the secret-leak scanner and form-validation code of the
heart-disease-prediction repository.

The scanner (`scripts/find_openai_apis.py`) is documented in `SUMMARY.md`
(its PATTERNS table is quoted there verbatim) and `scripts/README.md`
(exit codes); the script body itself is not among the staged files, so the
matching engine, masking, aggregation and exit control are modelled from
the specification's words, while every regular expression is taken
character for character from the documented PATTERNS table.

The browser form logic (`docs/script.js`) is staged in full;
`validateFormData` and `mockPrediction` are embedded from that source.
-/

namespace Scanner

/-- ASCII alphanumeric, the regex character class [a-zA-Z0-9]. -/
def alnum (c : Char) : Bool := c.isAlpha || c.isDigit

/-- Length of the longest run of [a-zA-Z0-9] characters at the head of the
list: what the greedy regex quantifier on that class consumes. -/
def alnumRun : List Char → Nat
  | [] => 0
  | c :: cs => if alnum c then alnumRun cs + 1 else 0

/-- The regex character class [a-zA-Z0-9-] of the org-key rule. -/
def alnumDash (c : Char) : Bool := alnum c || c = '-'

/-- Longest run of [a-zA-Z0-9-] characters at the head of the list. -/
def alnumDashRun : List Char → Nat
  | [] => 0
  | c :: cs => if alnumDash c then alnumDashRun cs + 1 else 0

/-- Longest run of whitespace at the head of the list (regex \s*, \s+). -/
def wsRun : List Char → Nat
  | [] => 0
  | c :: cs => if c.isWhitespace then wsRun cs + 1 else 0

/-- Boolean prefix test on character lists. -/
def isPrefixL (p l : List Char) : Bool := List.isPrefixOf p l

/-- Attempt of the documented api-key rule `sk-(?:proj-)?[a-zA-Z0-9]{48,}`
at the head of the list: the literal `sk-`, then the alternative with the
literal `proj-` (tried first, as the regex engine does), then a greedy run
of at least 48 alphanumerics. Returns the length of the match. -/
def matchKeyAt (l : List Char) : Option Nat :=
  if l.take 3 = ['s', 'k', '-'] then
    if (l.drop 3).take 5 = ['p', 'r', 'o', 'j', '-'] then
      if 48 ≤ alnumRun ((l.drop 3).drop 5) then some (8 + alnumRun ((l.drop 3).drop 5))
      else if 48 ≤ alnumRun (l.drop 3) then some (3 + alnumRun (l.drop 3)) else none
    else
      if 48 ≤ alnumRun (l.drop 3) then some (3 + alnumRun (l.drop 3)) else none
  else none

/-- Attempt of the documented org-key rule `org-[a-zA-Z0-9-]{20,30}` at the
head of the list: greedy, so the run is capped at 30 and must reach 20. -/
def matchOrgAt (l : List Char) : Option Nat :=
  if l.take 4 = ['o', 'r', 'g', '-'] then
    if 20 ≤ min (alnumDashRun (l.drop 4)) 30 then
      some (4 + min (alnumDashRun (l.drop 4)) 30)
    else none
  else none

/-- Attempt of the second alternative of `(?:from|import)\s+openai`. -/
def matchImportTail (l : List Char) : Option Nat :=
  if isPrefixL ("import".data) l then
    if 1 ≤ wsRun (l.drop 6) && isPrefixL ("openai".data) (l.drop (6 + wsRun (l.drop 6))) then
      some (6 + wsRun (l.drop 6) + 6)
    else none
  else none

/-- Attempt of the documented rule `(?:from|import)\s+openai` at the head of
the list; evaluated on the lowercased line (identifier-shaped rules are
matched case-insensitively per the specification). -/
def matchImportAt (l : List Char) : Option Nat :=
  if isPrefixL ("from".data) l then
    if 1 ≤ wsRun (l.drop 4) && isPrefixL ("openai".data) (l.drop (4 + wsRun (l.drop 4))) then
      some (4 + wsRun (l.drop 4) + 6)
    else matchImportTail l
  else matchImportTail l

/-- Attempt of the documented env-var rule
`(?:OPENAI_API_KEY|OPENAI_ORG|OPENAI_API_BASE)`, on the lowercased line. -/
def matchEnvAt (l : List Char) : Option Nat :=
  if isPrefixL ("openai_api_key".data) l then some 14
  else if isPrefixL ("openai_org".data) l then some 10
  else if isPrefixL ("openai_api_base".data) l then some 15
  else none

/-- Attempt of the documented client rule `OpenAI\s*\(`, on the lowercased
line. -/
def matchClientAt (l : List Char) : Option Nat :=
  if isPrefixL ("openai".data) l then
    if ((l.drop (6 + wsRun (l.drop 6))).take 1) = ['('] then
      some (6 + wsRun (l.drop 6) + 1)
    else none
  else none

/-- Attempt of the documented model-name rule
`(?:gpt-3\.5-turbo|gpt-4|text-davinci|text-curie)`. -/
def matchModelAt (l : List Char) : Option Nat :=
  if isPrefixL ("gpt-3.5-turbo".data) l then some 13
  else if isPrefixL ("gpt-4".data) l then some 5
  else if isPrefixL ("text-davinci".data) l then some 12
  else if isPrefixL ("text-curie".data) l then some 10
  else none

/-- Modelled from the spec: the Content Matcher applies one rule to one
line the way re.findall does — at each position the rule is attempted; a
hit is recorded as (start, length) and scanning resumes after the matched
span, a miss advances one character. The fuel argument bounds the
recursion by the line length. -/
def scanAux (f : List Char → Option Nat) : Nat → List Char → Nat → List (Nat × Nat)
  | 0, _, _ => []
  | _ + 1, [], _ => []
  | fuel + 1, c :: cs, i =>
    match f (c :: cs) with
    | some n => (i, n) :: scanAux f fuel (cs.drop (n - 1)) (i + 1 + (n - 1))
    | none => scanAux f fuel cs (i + 1)

/-- All non-overlapping matches of one rule on one line. -/
def scanAll (f : List Char → Option Nat) (l : List Char) : List (Nat × Nat) :=
  scanAux f l.length l 0

/-- The documented pattern categories of the PATTERNS table. -/
inductive PatternCategory
  | apiKey
  | orgKey
  | importHit
  | envVar
  | clientCall
  | modelRef
deriving DecidableEq

/-- Lowercasing for the case-insensitive identifier-shaped rules. -/
def lowerC (c : Char) : Char := c.toLower

/-- Modelled from the spec: the Content Matcher evaluates every registered
rule on the line, the key-shaped rules (api_key, org_key) and the
model-name rule against the line as written, the identifier-shaped rules
(imports, env-var names, client calls) against the lowercased line. -/
def lineMatches (l : List Char) : List (PatternCategory × Nat × Nat) :=
  (scanAll matchKeyAt l).map (fun p => (PatternCategory.apiKey, p))
    ++ (scanAll matchOrgAt l).map (fun p => (PatternCategory.orgKey, p))
    ++ (scanAll matchImportAt (l.map lowerC)).map (fun p => (PatternCategory.importHit, p))
    ++ (scanAll matchEnvAt (l.map lowerC)).map (fun p => (PatternCategory.envVar, p))
    ++ (scanAll matchClientAt (l.map lowerC)).map (fun p => (PatternCategory.clientCall, p))
    ++ (scanAll matchModelAt l).map (fun p => (PatternCategory.modelRef, p))

/-- Modelled from the spec: the masking transform keeps the first three
characters of the matched secret (enough to identify the key family) and
replaces the remainder with the fixed placeholder, so a detected key is
logged as `sk-***REDACTED***` exactly as SUMMARY.md documents. -/
def maskSecret (raw : List Char) : List Char := raw.take 3 ++ "***REDACTED***".data

/-- Where a finding came from: the working tree or the commit history. -/
inductive FindingKind
  | file
  | history
deriving DecidableEq

/-- One finding: category, source kind, location and the masked excerpt. -/
structure Finding where
  category : PatternCategory
  kind : FindingKind
  path : String
  lineNo : Nat
  excerpt : List Char
deriving DecidableEq

/-- Modelled from the spec: the findings of one line of one file, with the
masking transform applied to every match's raw text. -/
def lineToFindings (path : String) (ln : Nat) (l : List Char) : List Finding :=
  (lineMatches l).map fun m =>
    { category := m.1, kind := FindingKind.file, path := path, lineNo := ln,
      excerpt := maskSecret ((l.drop m.2.1).take m.2.2) }

/-- Modelled from the spec: a file is scanned line by line, line numbers
are 1-based. -/
def scanFileLines (path : String) (lines : List (List Char)) : List Finding :=
  (lines.enum.map fun q => lineToFindings path (q.1 + 1) q.2).flatten

/-- Modelled from the spec: the Tree Walker feeds every file to the
Content Matcher. -/
def scanTree (files : List (String × List (List Char))) : List Finding :=
  (files.map fun q => scanFileLines q.1 q.2).flatten

/-- The aggregate result of one scan invocation. -/
structure ScanResult where
  findings : List Finding
  degraded : Bool
deriving DecidableEq

/-- The clean flag: a ScanResult with zero findings, per the data model. -/
def ScanResult.clean (r : ScanResult) : Bool := r.findings.isEmpty

/-- Modelled from the spec: a scan runs the tree pass always and the
history pass only when requested; when the history backend is unavailable
the scan degrades to file-only results and flags the reduced coverage. -/
def runScan (files : List (String × List (List Char)))
    (histRequested histAvailable : Bool) (histFindings : List Finding) : ScanResult :=
  if histRequested then
    if histAvailable then { findings := scanTree files ++ histFindings, degraded := false }
    else { findings := scanTree files, degraded := true }
  else { findings := scanTree files, degraded := false }

/-- The two fatal configuration errors of the error-handling design. -/
inductive ConfigError
  | unreadableRoot
  | invalidExportPath
deriving DecidableEq

/-- Modelled from the spec and scripts/README.md: a configuration error is
fatal with a non-zero exit before any scanning; otherwise the exit status
is 0 when the result is clean and 1 when any finding exists. -/
def scannerExit : Except ConfigError ScanResult → Nat
  | Except.error _ => 1
  | Except.ok r => if r.clean then 0 else 1

/-- The single line of the specification's api-key scan scenario, as
written there: the token carries 46 alphanumeric characters after `sk-`. -/
def scenarioLine : List Char :=
  "token = \"sk-abcdEFGH12345678901234567890123456789012345678\"".data

/-- The scenario's directory: one file holding that single line. -/
def scenarioTree : List (String × List (List Char)) := [("config.txt", [scenarioLine])]

/-- The ScanResult of a file-only scan of the scenario directory. -/
def scenarioResult : ScanResult := { findings := scanTree scenarioTree, degraded := false }

/-- The scenario line with the token extended by two characters to the 48
alphanumerics the documented api-key rule requires. -/
def scenarioLine48 : List Char :=
  "token = \"sk-abcdEFGH12345678901234567890123456789012345678ab\"".data

/-- The directory holding the extended line. -/
def scenarioTree48 : List (String × List (List Char)) :=
  [("config.txt", [scenarioLine48])]

/-- The ScanResult of a file-only scan of the extended-line directory. -/
def scenarioResult48 : ScanResult := { findings := scanTree scenarioTree48, degraded := false }

/-- A line in which a well-formed key body sits strictly inside a longer
token: the alphanumeric character x immediately precedes `sk-`. -/
def embeddedKeyLine : List Char := 'x' :: ('s' :: 'k' :: '-' :: List.replicate 48 'a')

/-- A line holding exactly one well-formed legacy key. -/
def keyLineLow : List Char := 's' :: 'k' :: '-' :: List.replicate 48 'a'

/-- The same key with the two prefix letters uppercased. -/
def keyLineUp : List Char := 'S' :: 'K' :: '-' :: List.replicate 48 'a'

/-- The same key with the first body character uppercased instead. -/
def keyLineBodyUp : List Char := 's' :: 'k' :: '-' :: 'A' :: List.replicate 47 'a'

/-- A line holding exactly one well-formed org key. -/
def orgLineLow : List Char := 'o' :: 'r' :: 'g' :: '-' :: List.replicate 20 'b'

/-- The same org key with the prefix uppercased. -/
def orgLineUp : List Char := 'O' :: 'R' :: 'G' :: '-' :: List.replicate 20 'b'

end Scanner

namespace WebApp

/-- The thirteen clinical features the form collects, as `script.js` reads
them; the fields are rationals, standing for the exact values of the
numbers the form parses. -/
structure HeartData where
  age : ℚ
  sex : ℚ
  cp : ℚ
  trestbps : ℚ
  chol : ℚ
  fbs : ℚ
  restecg : ℚ
  thalach : ℚ
  exang : ℚ
  oldpeak : ℚ
  slope : ℚ
  ca : ℚ
  thal : ℚ

/-- The risk sum of `mockPrediction` before the random jitter and the
clamp: each condition of the source adds its constant. -/
def riskScoreRaw (d : HeartData) : ℚ :=
  (if d.age > 60 then (0.3 : ℚ) else 0)
    + (if d.sex = 1 then (0.1 : ℚ) else 0)
    + (if d.cp = 0 then (0.3 : ℚ) else 0)
    + (if d.trestbps > 140 then (0.2 : ℚ) else 0)
    + (if d.chol > 240 then (0.2 : ℚ) else 0)
    + (if d.exang = 1 then (0.3 : ℚ) else 0)
    + (if d.ca > 0 then 0.2 * d.ca else 0)
    + (if d.thal = 3 then (0.3 : ℚ) else 0)

/-- The final riskScore of `mockPrediction`: jitter `(r - 0.5) * 0.2` with
`r` the value of Math.random(), then the clamp
`Math.max(0, Math.min(1, riskScore))`. -/
def riskScore (d : HeartData) (r : ℚ) : ℚ :=
  max 0 (min 1 (riskScoreRaw d + (r - 0.5) * 0.2))

/-- The object `mockPrediction` resolves with: the prediction
`riskScore > 0.5 ? 1 : 0` and the probability, which is the clamped
riskScore itself. -/
def mockPrediction (d : HeartData) (r : ℚ) : Nat × ℚ :=
  (if riskScore d r > 0.5 then 1 else 0, riskScore d r)

/-- A JavaScript value as `validateFormData` can receive it: undefined (a
missing key), the number NaN, an ordinary number, or a string. -/
inductive JSVal
  | undef
  | nan
  | num (q : ℚ)
  | str (s : String)
deriving DecidableEq

/-- Whether a value is a JavaScript number (typeof x === 'number'): NaN is
a number, a string is not. -/
def JSVal.isNumber : JSVal → Bool
  | JSVal.num _ => true
  | JSVal.nan => true
  | _ => false

/-- The numeric value of a digit list, most significant first. -/
def natOfDigits (l : List Char) : Nat :=
  l.foldl (fun a c => a * 10 + (c.toNat - 48)) 0

/-- Decimal part of JavaScript's ToNumber on a trimmed string: an integer
part, optionally a dot and a fractional part, at least one digit in all.
Exponent, hexadecimal and Infinity forms are outside the inputs this
development evaluates and are not modelled. none stands for NaN. -/
def parseUnsigned (l : List Char) : Option ℚ :=
  if (l.takeWhile Char.isDigit) = l then
    if l = [] then none else some (natOfDigits l)
  else if (l.dropWhile Char.isDigit).take 1 = ['.'] then
    if ((l.dropWhile Char.isDigit).drop 1).all Char.isDigit
        && !(l.takeWhile Char.isDigit = [] && (l.dropWhile Char.isDigit).drop 1 = []) then
      some ((natOfDigits (l.takeWhile Char.isDigit) : ℚ)
        + (natOfDigits ((l.dropWhile Char.isDigit).drop 1) : ℚ)
          / (10 : ℚ) ^ ((l.dropWhile Char.isDigit).drop 1).length)
    else none
  else none

/-- Whitespace trimming on both ends, as ToNumber applies it. -/
def trimChars (l : List Char) : List Char :=
  ((l.dropWhile Char.isWhitespace).reverse.dropWhile Char.isWhitespace).reverse

/-- JavaScript's ToNumber on a string: the empty (or all-blank) string is
0, an optional sign precedes the decimal literal; none stands for NaN. -/
def jsStringToNumber (s : String) : Option ℚ :=
  match trimChars s.data with
  | [] => some 0
  | '-' :: rest => (parseUnsigned rest).map (fun q => -q)
  | '+' :: rest => parseUnsigned rest
  | l => parseUnsigned l

/-- The coercing global isNaN of JavaScript, as `validateFormData` calls
it: isNaN(undefined) is true, isNaN of a number is true only for NaN, and
a string is converted by ToNumber first. -/
def jsIsNaN : JSVal → Bool
  | JSVal.undef => true
  | JSVal.nan => true
  | JSVal.num _ => false
  | JSVal.str s => (jsStringToNumber s).isNone

/-- The requiredFields list of `validateFormData`, in source order. -/
def requiredFields : List String :=
  ["age", "sex", "cp", "trestbps", "chol", "fbs",
    "restecg", "thalach", "exang", "oldpeak", "slope", "ca", "thal"]

/-- The for-loop of `validateFormData`: the first field that is undefined,
the empty string, or NaN under the coercing isNaN returns false. -/
def validateLoop (data : String → JSVal) : List String → Bool
  | [] => true
  | f :: fs =>
    if data f = JSVal.undef then false
    else if data f = JSVal.str "" then false
    else if jsIsNaN (data f) then false
    else validateLoop data fs

/-- validateFormData of `script.js`: the loop over requiredFields. -/
def validateFormData (data : String → JSVal) : Bool :=
  validateLoop data requiredFields

end WebApp

namespace Scanner

/-- C1: the process exit status is 0 exactly when a ScanResult was produced
(no configuration error) and its clean flag is true; it is non-zero exactly
when a configuration error occurred or some finding exists. -/
theorem exit_zero_iff_clean :
    ∀ out : Except ConfigError ScanResult,
      (scannerExit out = 0 ↔ ∃ r, out = Except.ok r ∧ r.clean = true)
        ∧ (scannerExit out ≠ 0 ↔
            (∃ e, out = Except.error e) ∨ ∃ r, out = Except.ok r ∧ r.clean = false) := by
  intro out
  cases out with
  | error e => simp [scannerExit]
  | ok r =>
    cases hc : r.clean with
    | true => simp [scannerExit, hc]
    | false => simp [scannerExit, hc]

end Scanner

namespace WebApp

/-- C9: the probability `mockPrediction` resolves with is clamped to [0, 1],
and its prediction field is 1 exactly when that probability is strictly
greater than 0.5, so the High Risk label always agrees with the displayed
confidence. -/
theorem mock_prediction_consistent (d : HeartData) (r : ℚ) :
    0 ≤ (mockPrediction d r).2 ∧ (mockPrediction d r).2 ≤ 1
      ∧ ((mockPrediction d r).1 = 1 ↔ (mockPrediction d r).2 > 0.5) := by
  refine ⟨le_max_left 0 _, max_le (by norm_num) (min_le_left 1 _), ?_⟩
  by_cases h : riskScore d r > 0.5
  · simp [mockPrediction, h]
  · simp [mockPrediction, h]

/-- Helper: the validation loop accepts a field list exactly when every
field of it is defined, non-empty and not NaN under the coercing isNaN. -/
theorem validateLoop_iff (data : String → JSVal) :
    ∀ fs : List String, validateLoop data fs = true ↔
      ∀ f ∈ fs, data f ≠ JSVal.undef ∧ data f ≠ JSVal.str "" ∧ jsIsNaN (data f) = false := by
  intro fs
  induction fs with
  | nil => simp [validateLoop]
  | cons g gs ih =>
    by_cases h1 : data g = JSVal.undef
    · simp [validateLoop, h1]
    · by_cases h2 : data g = JSVal.str ""
      · simp [validateLoop, h1, h2]
      · by_cases h3 : jsIsNaN (data g) = true
        · simp [validateLoop, h1, h2, h3]
        · simp [validateLoop, h1, h2, h3, ih, Bool.not_eq_true]

/-- C10 counterexample: an object whose thirteen fields all hold the
string "1" — not a number — passes validateFormData, because the coercing
isNaN accepts a numeric string. -/
theorem validate_numeric_string_cex :
    validateFormData (fun _ => JSVal.str "1") = true
      ∧ JSVal.isNumber (JSVal.str "1") = false := by decide

/-- C10 amended: validateFormData returns true exactly when every one of
the thirteen required fields is present (not undefined), is not the empty
string, and is not NaN after JavaScript numeric coercion; a numeric string
passes even though it is not a number. -/
theorem validate_iff_amended (data : String → JSVal) :
    validateFormData data = true ↔
      ∀ f ∈ requiredFields,
        data f ≠ JSVal.undef ∧ data f ≠ JSVal.str "" ∧ jsIsNaN (data f) = false := by
  exact validateLoop_iff data requiredFields

end WebApp

namespace Scanner

/-- Helper: a run of alphanumerics never exceeds the text length. -/
theorem alnumRun_le_length : ∀ l : List Char, alnumRun l ≤ l.length := by
  intro l
  induction l with
  | nil => simp [alnumRun]
  | cons c cs ih =>
    by_cases h : alnum c = true
    · simp [alnumRun, h]; omega
    · simp [alnumRun, h]

/-- Helper: on an all-alphanumeric text the greedy run takes everything. -/
theorem alnumRun_eq_length (l : List Char) (h : ∀ c ∈ l, alnum c = true) :
    alnumRun l = l.length := by
  induction l with
  | nil => simp [alnumRun]
  | cons c cs ih =>
    have hc : alnum c = true := h c (List.mem_cons_self c cs)
    simp [alnumRun, hc, ih fun x hx => h x (List.mem_cons_of_mem c hx)]

/-- Helper: a hit of the api-key rule spans at least 51 characters and
stays inside the text. -/
theorem matchKeyAt_bound : ∀ l n, matchKeyAt l = some n → 51 ≤ n ∧ n ≤ l.length := by
  intro l n h
  unfold matchKeyAt at h
  by_cases h3 : l.take 3 = ['s', 'k', '-']
  · have hl3 : 3 ≤ l.length := by
      have := congrArg List.length h3
      simp at this
      omega
    by_cases h5 : (l.drop 3).take 5 = ['p', 'r', 'o', 'j', '-']
    · have hl8 : 8 ≤ l.length := by
        have := congrArg List.length h5
        simp at this
        omega
      simp only [h3, h5, if_true] at h
      by_cases hp : 48 ≤ alnumRun ((l.drop 3).drop 5)
      · have hrun := alnumRun_le_length ((l.drop 3).drop 5)
        simp only [List.length_drop] at hrun
        simp only [hp, if_true, Option.some.injEq] at h
        omega
      · have hrun := alnumRun_le_length (l.drop 3)
        simp only [List.length_drop] at hrun
        simp only [hp, if_false] at h
        by_cases hq : 48 ≤ alnumRun (l.drop 3)
        · simp only [hq, if_true, Option.some.injEq] at h
          omega
        · simp [hq] at h
    · have hrun := alnumRun_le_length (l.drop 3)
      simp only [List.length_drop] at hrun
      simp only [h3, h5, if_true, if_false] at h
      by_cases hq : 48 ≤ alnumRun (l.drop 3)
      · simp only [hq, if_true, Option.some.injEq] at h
        omega
      · simp [hq] at h
  · simp [h3] at h

/-- C4: the masking transform is idempotent and length-invariant — masking
a masked value changes nothing, and any two raw secrets (of any lengths,
both at least the 3 preserved prefix characters) mask to outputs of the
same length whose tails past the prefix are the identical fixed
placeholder. -/
theorem mask_idempotent_shape (r1 r2 : List Char)
    (h1 : 3 ≤ r1.length) (h2 : 3 ≤ r2.length) :
    maskSecret (maskSecret r1) = maskSecret r1
      ∧ (maskSecret r1).length = (maskSecret r2).length
      ∧ (maskSecret r1).drop 3 = (maskSecret r2).drop 3 := by
  have e1 : (r1.take 3).length = 3 := by simp [h1]
  have e2 : (r2.take 3).length = 3 := by simp [h2]
  refine ⟨?_, ?_, ?_⟩
  · simp [maskSecret, List.take_append_eq_append_take, e1, List.take_take]
  · simp [maskSecret, e1, e2]
  · simp [maskSecret, List.drop_append_eq_append_drop, e1, e2]

/-- C4 witness: a short and a long secret mask to the same shape, and the
mask of the short one is a fixed point. -/
theorem mask_idempotent_shape_witness :
    maskSecret (maskSecret ("sk-abc".data)) = maskSecret ("sk-abc".data)
      ∧ (maskSecret ("sk-abc".data)).length
          = (maskSecret ("sk-proj-abcdefghijklmnop".data)).length
      ∧ (maskSecret ("sk-abc".data)).drop 3
          = (maskSecret ("sk-proj-abcdefghijklmnop".data)).drop 3 :=
  mask_idempotent_shape ("sk-abc".data) ("sk-proj-abcdefghijklmnop".data)
    (by decide) (by decide)

end Scanner

namespace Scanner

/-- Helper: scanning an empty text reports nothing. -/
theorem scanAux_nil (f : List Char → Option Nat) (fuel i : Nat) :
    scanAux f fuel [] i = [] := by cases fuel <;> rfl

/-- Helper: the one-step unfolding of the scan on a non-empty text. -/
theorem scanAux_cons (f : List Char → Option Nat) (fuel : Nat) (c : Char)
    (cs : List Char) (i : Nat) :
    scanAux f (fuel + 1) (c :: cs) i =
      match f (c :: cs) with
      | some n => (i, n) :: scanAux f fuel (cs.drop (n - 1)) (i + 1 + (n - 1))
      | none => scanAux f fuel cs (i + 1) := rfl

/-- Helper: a hit that consumes the whole text is the only span reported. -/
theorem scanAux_exact (f : List Char → Option Nat) (fuel : Nat) (c : Char)
    (cs : List Char) (i n : Nat) (hm : f (c :: cs) = some n)
    (hall : cs.length = n - 1) :
    scanAux f (fuel + 1) (c :: cs) i = [(i, n)] := by
  rw [scanAux_cons, hm]
  show (i, n) :: scanAux f fuel (cs.drop (n - 1)) (i + 1 + (n - 1)) = [(i, n)]
  rw [← hall, List.drop_length, scanAux_nil]

/-- Helper: an all-alphanumeric text never starts with `proj-`. -/
theorem take5_ne_proj (s : List Char) (h : ∀ c ∈ s, alnum c = true) :
    s.take 5 ≠ ['p', 'r', 'o', 'j', '-'] := by
  intro he
  have hm : '-' ∈ s.take 5 := by rw [he]; simp
  exact absurd (h '-' ((List.take_subset 5 s) hm)) (by decide)

/-- Helper: the api-key rule accepts the legacy short-prefix form. -/
theorem matchKeyAt_sk (s : List Char)
    (ha : ∀ c ∈ s, alnum c = true) (hl : 48 ≤ s.length) :
    matchKeyAt ('s' :: 'k' :: '-' :: s) = some (3 + s.length) := by
  unfold matchKeyAt
  rw [show ('s' :: 'k' :: '-' :: s).take 3 = ['s', 'k', '-'] from rfl]
  rw [show ('s' :: 'k' :: '-' :: s).drop 3 = s from rfl]
  rw [if_pos rfl, if_neg (take5_ne_proj s ha), alnumRun_eq_length s ha, if_pos hl]

/-- Helper: the api-key rule accepts the structured-prefix form. -/
theorem matchKeyAt_sk_proj (s : List Char)
    (ha : ∀ c ∈ s, alnum c = true) (hl : 48 ≤ s.length) :
    matchKeyAt ('s' :: 'k' :: '-' :: 'p' :: 'r' :: 'o' :: 'j' :: '-' :: s)
      = some (8 + s.length) := by
  unfold matchKeyAt
  rw [show ('s' :: 'k' :: '-' :: 'p' :: 'r' :: 'o' :: 'j' :: '-' :: s).take 3
        = ['s', 'k', '-'] from rfl]
  rw [show ('s' :: 'k' :: '-' :: 'p' :: 'r' :: 'o' :: 'j' :: '-' :: s).drop 3
        = 'p' :: 'r' :: 'o' :: 'j' :: '-' :: s from rfl]
  rw [if_pos rfl]
  rw [show ('p' :: 'r' :: 'o' :: 'j' :: '-' :: s).take 5 = ['p', 'r', 'o', 'j', '-'] from rfl]
  rw [if_pos rfl]
  rw [show ('p' :: 'r' :: 'o' :: 'j' :: '-' :: s).drop 5 = s from rfl]
  rw [alnumRun_eq_length s ha, if_pos hl]

/-- Helper: a run of [a-zA-Z0-9-] never exceeds the text length. -/
theorem alnumDashRun_le_length : ∀ l : List Char, alnumDashRun l ≤ l.length := by
  intro l
  induction l with
  | nil => simp [alnumDashRun]
  | cons c cs ih =>
    by_cases h : alnumDash c = true
    · simp [alnumDashRun, h]; omega
    · simp [alnumDashRun, h]

/-- Helper: a hit of the org-key rule spans at least 24 characters and
stays inside the text. -/
theorem matchOrgAt_bound : ∀ l n, matchOrgAt l = some n → 24 ≤ n ∧ n ≤ l.length := by
  intro l n h
  unfold matchOrgAt at h
  by_cases h4 : l.take 4 = ['o', 'r', 'g', '-']
  · have hl4 : 4 ≤ l.length := by
      have := congrArg List.length h4
      simp at this
      omega
    have hrun := alnumDashRun_le_length (l.drop 4)
    simp only [List.length_drop] at hrun
    have hmin : min (alnumDashRun (l.drop 4)) 30 ≤ alnumDashRun (l.drop 4) :=
      Nat.min_le_left _ _
    rw [if_pos h4] at h
    by_cases hc : 20 ≤ min (alnumDashRun (l.drop 4)) 30
    · rw [if_pos hc] at h
      have hn := (Option.some.inj h).symm
      omega
    · rw [if_neg hc] at h
      simp at h
  · rw [if_neg h4] at h
    simp at h

/-- Helper: every span the scan reports starts at or after the scan origin
and is an actual hit of the rule at its start position. -/
theorem scanAux_mem_match (f : List Char → Option Nat)
    (hf : ∀ l n, f l = some n → 1 ≤ n) :
    ∀ fuel l i s n, (s, n) ∈ scanAux f fuel l i →
      i ≤ s ∧ f (l.drop (s - i)) = some n := by
  intro fuel
  induction fuel with
  | zero => intro l i s n h; simp [scanAux] at h
  | succ fuel ih =>
    intro l i s n h
    match l with
    | [] => simp [scanAux] at h
    | c :: cs =>
      rw [scanAux] at h
      cases hm : f (c :: cs) with
      | some m =>
        rw [hm] at h
        simp only [List.mem_cons] at h
        cases h with
        | inl h0 =>
          simp only [Prod.mk.injEq] at h0
          obtain ⟨hs, hn⟩ := h0
          subst hs; subst hn
          refine ⟨le_refl s, ?_⟩
          rw [Nat.sub_self, List.drop_zero]
          exact hm
        | inr h0 =>
          have hm1 := hf (c :: cs) m hm
          obtain ⟨hi, hmatch⟩ := ih (cs.drop (m - 1)) (i + 1 + (m - 1)) s n h0
          rw [List.drop_drop] at hmatch
          refine ⟨by omega, ?_⟩
          obtain ⟨d, hdn⟩ : ∃ d, s - i = d + 1 := ⟨s - i - 1, by omega⟩
          rw [hdn, List.drop_succ_cons,
            show d = m - 1 + (s - (i + 1 + (m - 1))) from by omega]
          exact hmatch
      | none =>
        rw [hm] at h
        obtain ⟨hi, hmatch⟩ := ih cs (i + 1) s n h
        refine ⟨by omega, ?_⟩
        obtain ⟨d, hdn⟩ : ∃ d, s - i = d + 1 := ⟨s - i - 1, by omega⟩
        rw [hdn, List.drop_succ_cons, show d = s - (i + 1) from by omega]
        exact hmatch

/-- Helper: a Boolean prefix hit pins down an initial segment of the text:
any prefix of the pattern is the text's take of its length. -/
theorem take_of_isPrefixL (p l q : List Char) (k : Nat) (h : isPrefixL p l = true)
    (hq : q <+: p) (hqk : q.length = k) : l.take k = q := by
  have hp : p <+: l := List.isPrefixOf_iff_prefix.mp h
  have := (List.prefix_iff_eq_take.mp (hq.trans hp)).symm
  rw [hqk] at this
  exact this

/-- Helper: a positive whitespace run means a whitespace first character. -/
theorem wsRun_pos_head (l : List Char) (h : 1 ≤ wsRun l) :
    ∃ c, l.head? = some c ∧ c.isWhitespace = true := by
  match l with
  | [] => simp [wsRun] at h
  | c :: cs =>
    by_cases hw : c.isWhitespace = true
    · exact ⟨c, rfl, hw⟩
    · simp [wsRun, hw] at h

/-- Helper: the head of a dropped text is the character at that index. -/
theorem head?_drop_eq_get? (l : List Char) (k : Nat) : (l.drop k).head? = l.get? k := by
  simp [List.head?_eq_getElem?, List.getElem?_drop, List.get?_eq_getElem?]

/-- Helper: an env-var hit is one of the three documented names, spelled
out at the head of the text. -/
theorem matchEnvAt_struct (l : List Char) (n : Nat) (h : matchEnvAt l = some n) :
    (n = 14 ∧ l.take 14 = "openai_api_key".data)
      ∨ (n = 10 ∧ l.take 10 = "openai_org".data)
      ∨ (n = 15 ∧ l.take 15 = "openai_api_base".data) := by
  unfold matchEnvAt at h
  by_cases h1 : isPrefixL ("openai_api_key".data) l = true
  · rw [if_pos h1] at h
    exact Or.inl ⟨(Option.some.inj h).symm,
      take_of_isPrefixL _ l _ 14 h1 (List.prefix_refl _) (by decide)⟩
  · rw [if_neg h1] at h
    by_cases h2 : isPrefixL ("openai_org".data) l = true
    · rw [if_pos h2] at h
      exact Or.inr (Or.inl ⟨(Option.some.inj h).symm,
        take_of_isPrefixL _ l _ 10 h2 (List.prefix_refl _) (by decide)⟩)
    · rw [if_neg h2] at h
      by_cases h3 : isPrefixL ("openai_api_base".data) l = true
      · rw [if_pos h3] at h
        exact Or.inr (Or.inr ⟨(Option.some.inj h).symm,
          take_of_isPrefixL _ l _ 15 h3 (List.prefix_refl _) (by decide)⟩)
      · rw [if_neg h3] at h
        simp at h

/-- Helper: a model-name hit is one of the four documented literals,
spelled out at the head of the text. -/
theorem matchModelAt_struct (l : List Char) (n : Nat) (h : matchModelAt l = some n) :
    (n = 13 ∧ l.take 13 = "gpt-3.5-turbo".data)
      ∨ (n = 5 ∧ l.take 5 = "gpt-4".data)
      ∨ (n = 12 ∧ l.take 12 = "text-davinci".data)
      ∨ (n = 10 ∧ l.take 10 = "text-curie".data) := by
  unfold matchModelAt at h
  by_cases h1 : isPrefixL ("gpt-3.5-turbo".data) l = true
  · rw [if_pos h1] at h
    exact Or.inl ⟨(Option.some.inj h).symm,
      take_of_isPrefixL _ l _ 13 h1 (List.prefix_refl _) (by decide)⟩
  · rw [if_neg h1] at h
    by_cases h2 : isPrefixL ("gpt-4".data) l = true
    · rw [if_pos h2] at h
      exact Or.inr (Or.inl ⟨(Option.some.inj h).symm,
        take_of_isPrefixL _ l _ 5 h2 (List.prefix_refl _) (by decide)⟩)
    · rw [if_neg h2] at h
      by_cases h3 : isPrefixL ("text-davinci".data) l = true
      · rw [if_pos h3] at h
        exact Or.inr (Or.inr (Or.inl ⟨(Option.some.inj h).symm,
          take_of_isPrefixL _ l _ 12 h3 (List.prefix_refl _) (by decide)⟩))
      · rw [if_neg h3] at h
        by_cases h4 : isPrefixL ("text-curie".data) l = true
        · rw [if_pos h4] at h
          exact Or.inr (Or.inr (Or.inr ⟨(Option.some.inj h).symm,
            take_of_isPrefixL _ l _ 10 h4 (List.prefix_refl _) (by decide)⟩))
        · rw [if_neg h4] at h
          simp at h

/-- Helper: an import hit starts with from or import, has a whitespace
character right after the keyword, and stays inside the text. -/
theorem matchImportAt_struct (l : List Char) (n : Nat) (h : matchImportAt l = some n) :
    (l.take 3 = ['f', 'r', 'o'] ∧ 5 ≤ n ∧ n ≤ l.length
        ∧ ∃ c, l.get? 4 = some c ∧ c.isWhitespace = true)
      ∨ (l.take 3 = ['i', 'm', 'p'] ∧ 7 ≤ n ∧ n ≤ l.length
        ∧ ∃ c, l.get? 6 = some c ∧ c.isWhitespace = true) := by
  unfold matchImportAt matchImportTail at h
  by_cases hf : isPrefixL ("from".data) l = true
  · rw [if_pos hf] at h
    by_cases hc : (decide (1 ≤ wsRun (l.drop 4))
        && isPrefixL ("openai".data) (l.drop (4 + wsRun (l.drop 4)))) = true
    · left
      rw [if_pos hc] at h
      have hn := (Option.some.inj h).symm
      rw [Bool.and_eq_true, decide_eq_true_eq] at hc
      obtain ⟨hw, hop⟩ := hc
      obtain ⟨c, hhd, hws⟩ := wsRun_pos_head (l.drop 4) hw
      rw [head?_drop_eq_get?] at hhd
      have hlen : 6 ≤ (l.drop (4 + wsRun (l.drop 4))).length :=
        (List.isPrefixOf_iff_prefix.mp hop).length_le
      simp only [List.length_drop] at hlen
      refine ⟨take_of_isPrefixL _ l ['f', 'r', 'o'] 3 hf (by decide) (by decide),
        by omega, by omega, c, hhd, hws⟩
    · rw [if_neg hc] at h
      by_cases hi : isPrefixL ("import".data) l = true
      · have a1 := take_of_isPrefixL _ l ['f'] 1 hf (by decide) (by decide)
        have b1 := take_of_isPrefixL _ l ['i'] 1 hi (by decide) (by decide)
        exact absurd (a1.symm.trans b1) (by decide)
      · rw [if_neg hi] at h
        simp at h
  · rw [if_neg hf] at h
    by_cases hi : isPrefixL ("import".data) l = true
    · rw [if_pos hi] at h
      by_cases hc : (decide (1 ≤ wsRun (l.drop 6))
          && isPrefixL ("openai".data) (l.drop (6 + wsRun (l.drop 6)))) = true
      · right
        rw [if_pos hc] at h
        have hn := (Option.some.inj h).symm
        rw [Bool.and_eq_true, decide_eq_true_eq] at hc
        obtain ⟨hw, hop⟩ := hc
        obtain ⟨c, hhd, hws⟩ := wsRun_pos_head (l.drop 6) hw
        rw [head?_drop_eq_get?] at hhd
        have hlen : 6 ≤ (l.drop (6 + wsRun (l.drop 6))).length :=
          (List.isPrefixOf_iff_prefix.mp hop).length_le
        simp only [List.length_drop] at hlen
        refine ⟨take_of_isPrefixL _ l ['i', 'm', 'p'] 3 hi (by decide) (by decide),
          by omega, by omega, c, hhd, hws⟩
      · rw [if_neg hc] at h
        simp at h
    · rw [if_neg hi] at h
      simp at h

/-- Helper: a client-call hit starts with openai and holds an opening
parenthesis inside the span. -/
theorem matchClientAt_struct (l : List Char) (n : Nat) (h : matchClientAt l = some n) :
    l.take 3 = ['o', 'p', 'e'] ∧ 3 ≤ n ∧ n ≤ l.length
      ∧ ∃ k, k < n ∧ l.get? k = some '(' := by
  unfold matchClientAt at h
  by_cases ho : isPrefixL ("openai".data) l = true
  · rw [if_pos ho] at h
    by_cases hp : ((l.drop (6 + wsRun (l.drop 6))).take 1) = ['(']
    · rw [if_pos hp] at h
      have hn := (Option.some.inj h).symm
      have hpar : l.get? (6 + wsRun (l.drop 6)) = some '(' := by
        rw [← head?_drop_eq_get?]
        cases hd : l.drop (6 + wsRun (l.drop 6)) with
        | nil => rw [hd] at hp; simp at hp
        | cons a as =>
          rw [hd] at hp
          have hp2 : a :: ([] : List Char) = ['('] := hp
          have ha : a = '(' := by injection hp2
          simp [ha]
      have hlt : 6 + wsRun (l.drop 6) < l.length := by
        rw [List.get?_eq_some] at hpar
        exact hpar.1
      refine ⟨take_of_isPrefixL _ l ['o', 'p', 'e'] 3 ho (by decide) (by decide),
        by omega, by omega, 6 + wsRun (l.drop 6), by omega, hpar⟩
    · rw [if_neg hp] at h
      simp at h
  · rw [if_neg ho] at h
    simp at h

/-- Helper: the masked excerpt is 17 characters, so a secret of at least
21 characters can fit in it neither whole nor without its 3-character
prefix. -/
theorem mask_shorter_than_secret (raw : List Char) (h21 : 21 ≤ raw.length) :
    ¬ (raw <:+: maskSecret raw) ∧ ¬ (raw.drop 3 <:+: maskSecret raw) := by
  have h14 : ("***REDACTED***".data).length = 14 := by decide
  have hm : (maskSecret raw).length = 17 := by
    simp only [maskSecret, List.length_append, List.length_take, h14]
    omega
  constructor
  · intro hin
    have := hin.length_le
    rw [hm] at this
    omega
  · intro hin
    have := hin.length_le
    rw [List.length_drop, hm] at this
    omega

/-- Helper: lowercasing the masked excerpt gives the lowercased kept
prefix followed by the lowercased placeholder. -/
theorem maskSecret_map_lower (raw : List Char) :
    (maskSecret raw).map lowerC = (raw.map lowerC).take 3 ++ "***redacted***".data := by
  simp only [maskSecret, List.map_append, List.map_take]
  rw [show ("***REDACTED***".data).map lowerC = "***redacted***".data from by decide]

/-- Helper: lowercasing commutes with cutting the matched span out of the
line. -/
theorem raw_map_lower (line : List Char) (s n : Nat) :
    ((line.drop s).take n).map lowerC = ((line.map lowerC).drop s).take n := by
  rw [List.map_take, List.map_drop]

/-- Helper: a raw span whose lowercasing holds a character the mask can
never hold — the mask being 3 kept characters plus the fixed placeholder —
does not occur inside its own masked excerpt. -/
theorem noleak_of_marked (raw mk3 : List Char) (k : Nat) (c : Char) (P : Char → Bool)
    (ht : (raw.map lowerC).take 3 = mk3)
    (hget : (raw.map lowerC).get? k = some c)
    (hP : P c = true)
    (hnot : ∀ x ∈ mk3 ++ "***redacted***".data, P x = false) :
    ¬ (raw <:+: maskSecret raw) := by
  intro hin
  have hlift := hin.map lowerC
  rw [maskSecret_map_lower] at hlift
  have hc : c ∈ raw.map lowerC := List.get?_mem hget
  have hcm : c ∈ mk3 ++ "***redacted***".data := by
    rw [← ht]
    exact hlift.sublist.subset hc
  have hfalse := hnot c hcm
  rw [hP] at hfalse
  exact absurd hfalse (by decide)

/-- C3: for every match of every registered rule on any line — exactly the
matches from which findings and their console or export renderings are
built — the raw matched text does not occur inside the masked excerpt
built from it; and for the key-shaped categories (api_key, org_key) the
suffix of the token past the 3 preserved characters does not occur in the
masked excerpt either. -/
theorem masked_excerpt_never_leaks (line : List Char) (cat : PatternCategory) (s n : Nat)
    (h : (cat, s, n) ∈ lineMatches line) :
    ¬ ((line.drop s).take n <:+: maskSecret ((line.drop s).take n))
      ∧ ((cat = PatternCategory.apiKey ∨ cat = PatternCategory.orgKey) →
          ¬ (((line.drop s).take n).drop 3 <:+: maskSecret ((line.drop s).take n))) := by
  simp only [lineMatches, List.mem_append, List.mem_map, Prod.mk.injEq] at h
  rcases h with ((((h | h) | h) | h) | h) | h
  · obtain ⟨p, hp, hcat, hsn⟩ := h
    subst hcat; subst hsn
    have hmatch := (scanAux_mem_match matchKeyAt
      (fun l n hh => by have := matchKeyAt_bound l n hh; omega)
      line.length line 0 s n hp).2
    rw [Nat.sub_zero] at hmatch
    have hb := matchKeyAt_bound (line.drop s) n hmatch
    have hraw : ((line.drop s).take n).length = n := by
      rw [List.length_take]
      exact Nat.min_eq_left hb.2
    have hnl := mask_shorter_than_secret ((line.drop s).take n) (by omega)
    exact ⟨hnl.1, fun _ => hnl.2⟩
  · obtain ⟨p, hp, hcat, hsn⟩ := h
    subst hcat; subst hsn
    have hmatch := (scanAux_mem_match matchOrgAt
      (fun l n hh => by have := matchOrgAt_bound l n hh; omega)
      line.length line 0 s n hp).2
    rw [Nat.sub_zero] at hmatch
    have hb := matchOrgAt_bound (line.drop s) n hmatch
    have hraw : ((line.drop s).take n).length = n := by
      rw [List.length_take]
      exact Nat.min_eq_left hb.2
    have hnl := mask_shorter_than_secret ((line.drop s).take n) (by omega)
    exact ⟨hnl.1, fun _ => hnl.2⟩
  · obtain ⟨p, hp, hcat, hsn⟩ := h
    subst hcat; subst hsn
    have hmatch := (scanAux_mem_match matchImportAt
      (fun l n hh => by
        rcases matchImportAt_struct l n hh with ⟨_, hn, _⟩ | ⟨_, hn, _⟩ <;> omega)
      (line.map lowerC).length (line.map lowerC) 0 s n hp).2
    rw [Nat.sub_zero] at hmatch
    refine ⟨?_, fun hc => absurd hc (by decide)⟩
    rcases matchImportAt_struct _ _ hmatch with ⟨ht, hn, hlen, c, hget, hws⟩
        | ⟨ht, hn, hlen, c, hget, hws⟩
    · refine noleak_of_marked _ ['f', 'r', 'o'] 4 c Char.isWhitespace ?_ ?_ hws (by decide)
      · rw [raw_map_lower, List.take_take, show min 3 n = 3 from by omega, ht]
      · rw [raw_map_lower, List.get?_take (show 4 < n from by omega)]
        exact hget
    · refine noleak_of_marked _ ['i', 'm', 'p'] 6 c Char.isWhitespace ?_ ?_ hws (by decide)
      · rw [raw_map_lower, List.take_take, show min 3 n = 3 from by omega, ht]
      · rw [raw_map_lower, List.get?_take (show 6 < n from by omega)]
        exact hget
  · obtain ⟨p, hp, hcat, hsn⟩ := h
    subst hcat; subst hsn
    have hmatch := (scanAux_mem_match matchEnvAt
      (fun l n hh => by
        rcases matchEnvAt_struct l n hh with ⟨hn, _⟩ | ⟨hn, _⟩ | ⟨hn, _⟩ <;> omega)
      (line.map lowerC).length (line.map lowerC) 0 s n hp).2
    rw [Nat.sub_zero] at hmatch
    refine ⟨?_, fun hc => absurd hc (by decide)⟩
    intro hin
    have hlift := hin.map lowerC
    rw [maskSecret_map_lower, raw_map_lower] at hlift
    rcases matchEnvAt_struct _ _ hmatch with ⟨hn, ht⟩ | ⟨hn, ht⟩ | ⟨hn, ht⟩ <;>
      subst hn <;> rw [ht] at hlift
    · exact absurd hlift (by decide)
    · exact absurd hlift (by decide)
    · exact absurd hlift (by decide)
  · obtain ⟨p, hp, hcat, hsn⟩ := h
    subst hcat; subst hsn
    have hmatch := (scanAux_mem_match matchClientAt
      (fun l n hh => by have := (matchClientAt_struct l n hh).2.1; omega)
      (line.map lowerC).length (line.map lowerC) 0 s n hp).2
    rw [Nat.sub_zero] at hmatch
    obtain ⟨ht, hn, hlen, k, hk, hget⟩ := matchClientAt_struct _ _ hmatch
    refine ⟨?_, fun hc => absurd hc (by decide)⟩
    refine noleak_of_marked _ ['o', 'p', 'e'] k '(' (fun x => x == '(') ?_ ?_
      (by decide) (by decide)
    · rw [raw_map_lower, List.take_take, show min 3 n = 3 from by omega, ht]
    · rw [raw_map_lower, List.get?_take hk]
      exact hget
  · obtain ⟨p, hp, hcat, hsn⟩ := h
    subst hcat; subst hsn
    have hmatch := (scanAux_mem_match matchModelAt
      (fun l n hh => by
        rcases matchModelAt_struct l n hh with ⟨hn, _⟩ | ⟨hn, _⟩ | ⟨hn, _⟩ | ⟨hn, _⟩ <;> omega)
      line.length line 0 s n hp).2
    rw [Nat.sub_zero] at hmatch
    refine ⟨?_, fun hc => absurd hc (by decide)⟩
    rcases matchModelAt_struct _ _ hmatch with ⟨hn, ht⟩ | ⟨hn, ht⟩ | ⟨hn, ht⟩ | ⟨hn, ht⟩ <;>
      subst hn <;> rw [ht]
    · exact (by decide)
    · exact (by decide)
    · exact (by decide)
    · exact (by decide)

/-- C3 witness: the api-key match on a concrete key line. -/
theorem masked_excerpt_never_leaks_witness :
    ¬ ((keyLineLow.drop 0).take 51 <:+: maskSecret ((keyLineLow.drop 0).take 51))
      ∧ ((PatternCategory.apiKey = PatternCategory.apiKey
            ∨ PatternCategory.apiKey = PatternCategory.orgKey) →
          ¬ (((keyLineLow.drop 0).take 51).drop 3
              <:+: maskSecret ((keyLineLow.drop 0).take 51))) :=
  masked_excerpt_never_leaks keyLineLow PatternCategory.apiKey 0 51 (by decide)

/-- C5: both documented bearer-key prefix variants are matched: for every
long alphanumeric body, the legacy `sk-` form and the structured
`sk-proj-` form are each reported by the Content Matcher as an api_key
match covering the whole token. -/
theorem api_key_prefix_variants (s : List Char)
    (ha : ∀ c ∈ s, alnum c = true) (hl : 48 ≤ s.length) :
    (PatternCategory.apiKey, 0, 3 + s.length) ∈ lineMatches ("sk-".data ++ s)
      ∧ (PatternCategory.apiKey, 0, 8 + s.length)
          ∈ lineMatches ("sk-proj-".data ++ s) := by
  have hd1 : "sk-".data ++ s = 's' :: 'k' :: '-' :: s := rfl
  have hd2 : "sk-proj-".data ++ s
      = 's' :: 'k' :: '-' :: 'p' :: 'r' :: 'o' :: 'j' :: '-' :: s := rfl
  have hs1 : scanAll matchKeyAt ("sk-".data ++ s) = [(0, 3 + s.length)] := by
    rw [hd1]
    show scanAux matchKeyAt ('s' :: 'k' :: '-' :: s).length ('s' :: 'k' :: '-' :: s) 0 = _
    rw [show ('s' :: 'k' :: '-' :: s).length = ('k' :: '-' :: s).length + 1 from rfl]
    exact scanAux_exact _ _ _ _ _ _ (matchKeyAt_sk s ha hl) (by simp; omega)
  have hs2 : scanAll matchKeyAt ("sk-proj-".data ++ s) = [(0, 8 + s.length)] := by
    rw [hd2]
    show scanAux matchKeyAt ('s' :: 'k' :: '-' :: 'p' :: 'r' :: 'o' :: 'j' :: '-' :: s).length
      ('s' :: 'k' :: '-' :: 'p' :: 'r' :: 'o' :: 'j' :: '-' :: s) 0 = _
    rw [show ('s' :: 'k' :: '-' :: 'p' :: 'r' :: 'o' :: 'j' :: '-' :: s).length
          = ('k' :: '-' :: 'p' :: 'r' :: 'o' :: 'j' :: '-' :: s).length + 1 from rfl]
    exact scanAux_exact _ _ _ _ _ _ (matchKeyAt_sk_proj s ha hl) (by simp; omega)
  constructor
  · refine List.mem_append_left _ ?_
    rw [hs1]
    simp
  · refine List.mem_append_left _ ?_
    rw [hs2]
    simp

/-- C5 witness: a concrete 48-character body in both prefix forms. -/
theorem api_key_prefix_variants_witness :
    (PatternCategory.apiKey, 0, 3 + (List.replicate 48 'a').length)
        ∈ lineMatches ("sk-".data ++ List.replicate 48 'a')
      ∧ (PatternCategory.apiKey, 0, 8 + (List.replicate 48 'a').length)
        ∈ lineMatches ("sk-proj-".data ++ List.replicate 48 'a') :=
  api_key_prefix_variants (List.replicate 48 'a') (by decide) (by decide)

end Scanner

namespace Scanner

/-- C6 counterexample: on a line where the key-shaped substring sits
strictly inside the longer token `xsk-aaa…` — its start is immediately
preceded by the alphanumeric character x — the api-key rule still reports
a match, so the documented regexes are not anchored to token boundaries. -/
theorem api_key_matches_inside_token :
    scanAll matchKeyAt embeddedKeyLine = [(1, 51)]
      ∧ alnum 'x' = true ∧ alnum 'a' = true := by decide

/-- C6 amended: the documented key regexes carry no anchors: for every
long alphanumeric body, a key-like substring occurring strictly inside a
longer token (here immediately after the alphanumeric character x) is
still reported as a match by the Content Matcher. -/
theorem api_key_unanchored (s : List Char)
    (ha : ∀ c ∈ s, alnum c = true) (hl : 48 ≤ s.length) :
    scanAll matchKeyAt ('x' :: 's' :: 'k' :: '-' :: s) = [(1, 3 + s.length)] := by
  have hx : matchKeyAt ('x' :: 's' :: 'k' :: '-' :: s) = none := by
    unfold matchKeyAt
    rw [show ('x' :: 's' :: 'k' :: '-' :: s).take 3 = ['x', 's', 'k'] from rfl]
    rw [if_neg (by decide)]
  show scanAux matchKeyAt ('x' :: 's' :: 'k' :: '-' :: s).length
    ('x' :: 's' :: 'k' :: '-' :: s) 0 = _
  rw [show ('x' :: 's' :: 'k' :: '-' :: s).length
        = ('s' :: 'k' :: '-' :: s).length + 1 from rfl]
  rw [scanAux_cons, hx]
  show scanAux matchKeyAt ('s' :: 'k' :: '-' :: s).length ('s' :: 'k' :: '-' :: s) 1
    = [(1, 3 + s.length)]
  rw [show ('s' :: 'k' :: '-' :: s).length = ('k' :: '-' :: s).length + 1 from rfl]
  exact scanAux_exact _ _ _ _ _ _ (matchKeyAt_sk s ha hl) (by simp; omega)

/-- C6 amended witness: the concrete embedded-key line. -/
theorem api_key_unanchored_witness :
    scanAll matchKeyAt ('x' :: 's' :: 'k' :: '-' :: List.replicate 48 'a')
      = [(1, 3 + (List.replicate 48 'a').length)] :=
  api_key_unanchored (List.replicate 48 'a') (by decide) (by decide)

/-- C7 counterexample: two lines that differ only in the letter case of a
character inside the key-shaped token — the first body character — are
both matched by the api-key rule, so a case change inside a key-shaped
token does not in general prevent a match (the regex body class covers
both cases). -/
theorem key_body_case_still_matches :
    keyLineLow ≠ keyLineBodyUp
      ∧ keyLineLow.map lowerC = keyLineBodyUp.map lowerC
      ∧ scanAll matchKeyAt keyLineLow = [(0, 51)]
      ∧ scanAll matchKeyAt keyLineBodyUp = [(0, 51)] := by decide

/-- C7 amended: identifier-shaped rules (imports, env-var names, client
calls) are evaluated case-insensitively — their matches depend only on
the lowercased line — while the key-shaped rules are case-sensitive in
their literal prefixes: uppercasing `sk-` or `org-` prevents the match,
though a case change inside the alphanumeric body of a key still
matches. -/
theorem case_sensitivity_by_shape :
    (∀ l1 l2 : List Char, l1.map lowerC = l2.map lowerC →
        scanAll matchImportAt (l1.map lowerC) = scanAll matchImportAt (l2.map lowerC)
          ∧ scanAll matchEnvAt (l1.map lowerC) = scanAll matchEnvAt (l2.map lowerC)
          ∧ scanAll matchClientAt (l1.map lowerC) = scanAll matchClientAt (l2.map lowerC))
      ∧ scanAll matchKeyAt keyLineLow = [(0, 51)]
      ∧ scanAll matchKeyAt keyLineUp = []
      ∧ scanAll matchKeyAt keyLineBodyUp = [(0, 51)]
      ∧ scanAll matchOrgAt orgLineLow = [(0, 24)]
      ∧ scanAll matchOrgAt orgLineUp = [] := by
  refine ⟨?_, by decide, by decide, by decide, by decide, by decide⟩
  intro l1 l2 h
  rw [h]
  exact ⟨rfl, rfl, rfl⟩

/-- Helper: every finding the Tree Walker produces is of file kind. -/
theorem scanTree_file_kind (files : List (String × List (List Char))) :
    ∀ f ∈ scanTree files, f.kind = FindingKind.file := by
  intro f hf
  simp only [scanTree, List.mem_flatten, List.mem_map] at hf
  obtain ⟨L, ⟨q, hq, hL⟩, hfL⟩ := hf
  subst hL
  simp only [scanFileLines, List.mem_flatten, List.mem_map] at hfL
  obtain ⟨L2, ⟨p, hp, hL2⟩, hfL2⟩ := hfL
  subst hL2
  simp only [lineToFindings, List.mem_map] at hfL2
  obtain ⟨m, hm, hf2⟩ := hfL2
  subst hf2
  rfl

/-- C8: when the history pass is requested but the backend is unavailable,
the scan still completes, every finding of the result is of file kind, and
the result carries the degraded flag, so the reduced coverage is reported
rather than the result passing as unqualified. -/
theorem history_unavailable_degrades (files : List (String × List (List Char)))
    (histFindings : List Finding) :
    (runScan files true false histFindings).degraded = true
      ∧ ∀ f ∈ (runScan files true false histFindings).findings,
          f.kind = FindingKind.file := by
  exact ⟨rfl, fun f hf => scanTree_file_kind files f hf⟩

/-- C2 counterexample: scanning the directory of the specification's
scenario — one file holding the quoted token literal, which carries only
46 alphanumerics after `sk-` — yields no finding at all, a clean result
and exit status 0, not the one api_key finding, unclean result and
non-zero exit the claim states. -/
theorem scenario_literal_no_finding :
    scanTree scenarioTree = []
      ∧ scenarioResult.clean = true
      ∧ scannerExit (Except.ok scenarioResult) = 0 := by decide

/-- C2 amended: the quoted 46-character token is below the 48-character
minimum of the documented api-key rule, so its scan reports nothing, is
clean and exits 0; extending the token to 48 alphanumerics yields exactly
one api_key finding at that file and line — masked as `sk-***REDACTED***`
— an unclean result, and exit status 1. -/
theorem scenario_literal_amended :
    scanTree scenarioTree = []
      ∧ scenarioResult.clean = true
      ∧ scannerExit (Except.ok scenarioResult) = 0
      ∧ (scanTree scenarioTree48).map (fun f => (f.category, f.path, f.lineNo))
          = [(PatternCategory.apiKey, "config.txt", 1)]
      ∧ (scanTree scenarioTree48).map (fun f => f.excerpt)
          = ["sk-***REDACTED***".data]
      ∧ scenarioResult48.clean = false
      ∧ scannerExit (Except.ok scenarioResult48) = 1 := by decide

end Scanner
